import Mathlib

/-!
Shallow embedding of the Ruralis agricultural-inventory backend.

The repository holds two versions of the service:
* `src/ruralis/main.py` — the full version: agrochemicals carry a currency
  (`moneda`), expense records store both an ARS and a USD cost, costs are
  converted through an external exchange-rate lookup with a hardcoded
  fallback, and a cost-total report endpoint exists.
* `src/main.py` — the legacy version: user CRUD, agrochemical CRUD with
  delete endpoints, and an apply operation whose single cost field divides
  the consumed amount by 1000.

Database rows become Lean structures; SQLAlchemy floats become rationals;
each endpoint handler becomes a pure function from the database state (plus
any external inputs: the exchange-rate fetch outcome, the generated row id,
the timestamp string) to a result paired with the new database state.
-/

/-- Update the first element of a list satisfying `p` by applying `f`,
mirroring a mutation of the row returned by `query(...).filter(...).first()`. -/
def updateFirst (p : α → Bool) (f : α → α) : List α → List α
  | [] => []
  | x :: xs => if p x then f x :: xs else x :: updateFirst p f xs

/-- Remove the first element of a list satisfying `p`, mirroring
`db.delete(...)` of the row returned by `query(...).filter(...).first()`. -/
def eraseFirst (p : α → Bool) : List α → List α
  | [] => []
  | x :: xs => if p x then xs else x :: eraseFirst p xs

namespace Ruralis

/-- Row of the `agroquimicos` table in `src/ruralis/main.py`. -/
structure Agroquimico where
  id : Nat
  nombre : String
  cantidad : ℚ
  unidad : String
  precio_unitario : ℚ
  moneda : String
deriving DecidableEq

/-- Row of the `gastos_agroquimicos` table in `src/ruralis/main.py`. -/
structure GastoAgroquimico where
  id : Nat
  agroquimico_id : Nat
  cantidad_aplicada : ℚ
  costo_total_ars : ℚ
  costo_total_usd : ℚ
  fecha : String
deriving DecidableEq

/-- Database state of the ruralis version: the two tables it touches. -/
structure DB where
  agroquimicos : List Agroquimico
  gastos : List GastoAgroquimico
deriving DecidableEq

/-- Outcome of the HTTP request made by `obtener_tipo_cambio`:
either the JSON decoded and `data["rates"]["USD"]` was present with value
`usdRate`, or the `"USD"` key was missing from `rates`, or the body was
malformed (any exception while decoding, e.g. a missing `"rates"` key), or
the request itself raised a network error. -/
inductive FetchOutcome where
  | ok (usdRate : ℚ)
  | missingUSD
  | malformed
  | networkError
deriving DecidableEq

/-- `obtener_tipo_cambio` of `src/ruralis/main.py`: returns
`data["rates"].get("USD", 0.001)` on a decoded response and falls back to
`0.001` when the key is missing or any exception is raised. -/
def obtener_tipo_cambio : FetchOutcome → ℚ
  | .ok usdRate => usdRate
  | .missingUSD => 1 / 1000
  | .malformed => 1 / 1000
  | .networkError => 1 / 1000

/-- Body returned by the apply endpoint: the error bodies
`{"error": "Agroquímico no encontrado"}` and `{"error": "Stock insuficiente"}`,
or the success body carrying the refreshed agrochemical and the new expense row. -/
inductive ApplyResult where
  | notFound
  | insufficientStock
  | ok (agroquimico : Agroquimico) (gasto : GastoAgroquimico)
deriving DecidableEq

/-- `aplicar_agroquimico` of `src/ruralis/main.py`. `fetch` is the outcome of
the exchange-rate HTTP call, `newId` the id the store generates for the new
expense row, `fecha` the formatted current timestamp. -/
def aplicar_agroquimico (db : DB) (agroquimico_id : Nat) (dosis hectareas : ℚ)
    (fetch : FetchOutcome) (newId : Nat) (fecha : String) : ApplyResult × DB :=
  match db.agroquimicos.find? (fun a => a.id == agroquimico_id) with
  | none => (.notFound, db)
  | some a =>
    let cantidad_aplicada := dosis * hectareas
    if a.cantidad < cantidad_aplicada then
      (.insufficientStock, db)
    else
      let costo_total_ars := a.precio_unitario * cantidad_aplicada
      let tipo_cambio := obtener_tipo_cambio fetch
      let costo_total_usd :=
        if a.moneda == "ARS" then costo_total_ars * tipo_cambio else costo_total_ars
      let nuevo_gasto : GastoAgroquimico :=
        ⟨newId, agroquimico_id, cantidad_aplicada, costo_total_ars, costo_total_usd, fecha⟩
      let a' := { a with cantidad := a.cantidad - cantidad_aplicada }
      (.ok a' nuevo_gasto,
        { agroquimicos :=
            updateFirst (fun x => x.id == agroquimico_id)
              (fun x => { x with cantidad := x.cantidad - cantidad_aplicada })
              db.agroquimicos,
          gastos := db.gastos ++ [nuevo_gasto] })

/-- `create_agroquimico` of `src/ruralis/main.py`: insert the row built from
the request body; `newId` is the generated primary key. -/
def create_agroquimico (db : DB) (nombre : String) (cantidad : ℚ) (unidad : String)
    (precio_unitario : ℚ) (moneda : String) (newId : Nat) : Agroquimico × DB :=
  let row : Agroquimico := ⟨newId, nombre, cantidad, unidad, precio_unitario, moneda⟩
  (row, { db with agroquimicos := db.agroquimicos ++ [row] })

/-- `get_agroquimicos` of `src/ruralis/main.py`. -/
def get_agroquimicos (db : DB) : List Agroquimico := db.agroquimicos

/-- `get_gastos` of `src/ruralis/main.py`. -/
def get_gastos (db : DB) : List GastoAgroquimico := db.gastos

/-- `get_costo_total` of `src/ruralis/main.py`. Modelled from the spec: the
handler's body reads `db.query(func.sum(...)).scalar() or 0` for each cost
column, but the module never imports `func` from sqlalchemy, so as written
every request to this endpoint raises `NameError`; this definition captures
the evident intent (the SQL `SUM` over each column, `NULL`/`None` coerced to
`0` on an empty table), which the spec states as the contract. -/
def get_costo_total (db : DB) : ℚ × ℚ :=
  (db.gastos.foldr (fun g acc => g.costo_total_ars + acc) 0,
   db.gastos.foldr (fun g acc => g.costo_total_usd + acc) 0)

end Ruralis

namespace Legacy

/-- Row of the `users` table in `src/main.py`. -/
structure User where
  id : Nat
  name : String
  email : String
deriving DecidableEq

/-- Row of the `agroquimicos` table in `src/main.py` (no currency column). -/
structure Agroquimico where
  id : Nat
  nombre : String
  cantidad : ℚ
  unidad : String
  precio_unitario : ℚ
deriving DecidableEq

/-- Row of the `gastos_agroquimicos` table in `src/main.py` (single cost column). -/
structure GastoAgroquimico where
  id : Nat
  agroquimico_id : Nat
  cantidad_aplicada : ℚ
  costo_total : ℚ
  fecha : String
deriving DecidableEq

/-- Database state of the legacy version: its three tables. -/
structure DB where
  users : List User
  agroquimicos : List Agroquimico
  gastos : List GastoAgroquimico
deriving DecidableEq

/-- Body returned by the delete endpoints: the error body
`{"error": "... no encontrado"}` or the confirmation message. -/
inductive DeleteResult where
  | notFound
  | deleted
deriving DecidableEq

/-- `delete_user` of `src/main.py`: look up the first row with the given id;
if absent return the error body, otherwise delete that row and confirm. -/
def delete_user (db : DB) (user_id : Nat) : DeleteResult × DB :=
  match db.users.find? (fun u => u.id == user_id) with
  | none => (.notFound, db)
  | some _ =>
    (.deleted, { db with users := eraseFirst (fun u => u.id == user_id) db.users })

/-- `delete_agroquimico` of `src/main.py`. -/
def delete_agroquimico (db : DB) (agroquimico_id : Nat) : DeleteResult × DB :=
  match db.agroquimicos.find? (fun a => a.id == agroquimico_id) with
  | none => (.notFound, db)
  | some _ =>
    (.deleted,
      { db with agroquimicos := eraseFirst (fun a => a.id == agroquimico_id) db.agroquimicos })

/-- `create_user` of `src/main.py`. -/
def create_user (db : DB) (name email : String) (newId : Nat) : User × DB :=
  let row : User := ⟨newId, name, email⟩
  (row, { db with users := db.users ++ [row] })

/-- `create_agroquimico` of `src/main.py`. -/
def create_agroquimico (db : DB) (nombre : String) (cantidad : ℚ) (unidad : String)
    (precio_unitario : ℚ) (newId : Nat) : Agroquimico × DB :=
  let row : Agroquimico := ⟨newId, nombre, cantidad, unidad, precio_unitario⟩
  (row, { db with agroquimicos := db.agroquimicos ++ [row] })

/-- Body returned by the legacy apply endpoint. -/
inductive ApplyResult where
  | notFound
  | insufficientStock
  | ok (agroquimico : Agroquimico) (gasto : GastoAgroquimico)
deriving DecidableEq

/-- `aplicar_agroquimico` of `src/main.py`: same stock check as the ruralis
version, but the single stored cost is `precio_unitario * (cantidad_necesaria / 1000)`
and no exchange-rate call is made. -/
def aplicar_agroquimico (db : DB) (agroquimico_id : Nat) (dosis_por_ha hectareas : ℚ)
    (newId : Nat) (fecha : String) : ApplyResult × DB :=
  match db.agroquimicos.find? (fun a => a.id == agroquimico_id) with
  | none => (.notFound, db)
  | some a =>
    let cantidad_necesaria := dosis_por_ha * hectareas
    if a.cantidad < cantidad_necesaria then
      (.insufficientStock, db)
    else
      let costo_total := a.precio_unitario * (cantidad_necesaria / 1000)
      let nuevo_gasto : GastoAgroquimico :=
        ⟨newId, agroquimico_id, cantidad_necesaria, costo_total, fecha⟩
      let a' := { a with cantidad := a.cantidad - cantidad_necesaria }
      (.ok a' nuevo_gasto,
        { db with
          agroquimicos :=
            updateFirst (fun x => x.id == agroquimico_id)
              (fun x => { x with cantidad := x.cantidad - cantidad_necesaria })
              db.agroquimicos,
          gastos := db.gastos ++ [nuevo_gasto] })

end Legacy

/-! Generic lemmas about the list helpers. -/

theorem length_updateFirst (p : α → Bool) (f : α → α) (l : List α) :
    (updateFirst p f l).length = l.length := by
  induction l with
  | nil => rfl
  | cons x xs ih =>
    simp only [updateFirst]
    split <;> simp [ih]

theorem mem_updateFirst_of_find? (p : α → Bool) (f : α → α) (l : List α) (a : α)
    (hfind : l.find? p = some a) :
    ∀ x ∈ updateFirst p f l, x = f a ∨ x ∈ l := by
  induction l with
  | nil => intro x hx; simp [updateFirst] at hx
  | cons y ys ih =>
    intro x hx
    by_cases hp : p y = true
    · rw [List.find?_cons_of_pos _ hp] at hfind
      injection hfind with hya
      subst hya
      simp only [updateFirst, hp, if_true] at hx
      rcases List.mem_cons.mp hx with hx | hx
      · exact Or.inl hx
      · exact Or.inr (List.mem_cons_of_mem _ hx)
    · rw [List.find?_cons_of_neg _ (by simpa using hp)] at hfind
      simp only [updateFirst, hp, if_false] at hx
      rcases List.mem_cons.mp hx with hx | hx
      · subst hx; exact Or.inr (List.mem_cons_self _ _)
      · rcases ih hfind x hx with h | h
        · exact Or.inl h
        · exact Or.inr (List.mem_cons_of_mem _ h)

theorem find?_updateFirst (p : α → Bool) (f : α → α) (l : List α) (a : α)
    (hfind : l.find? p = some a) (hfa : p (f a) = true) :
    (updateFirst p f l).find? p = some (f a) := by
  induction l with
  | nil => simp at hfind
  | cons y ys ih =>
    by_cases hp : p y = true
    · rw [List.find?_cons_of_pos _ hp] at hfind
      injection hfind with hya
      subst hya
      simp only [updateFirst, hp, if_true]
      exact List.find?_cons_of_pos _ hfa
    · have hp' : p y = false := by simpa using hp
      rw [List.find?_cons_of_neg _ (by simpa using hp)] at hfind
      simp only [updateFirst, hp', Bool.false_eq_true, if_false]
      rw [List.find?_cons_of_neg _ (by simpa using hp)]
      exact ih hfind

theorem length_eraseFirst_of_find? (p : α → Bool) (l : List α) (a : α)
    (hfind : l.find? p = some a) :
    (eraseFirst p l).length + 1 = l.length := by
  induction l with
  | nil => simp at hfind
  | cons y ys ih =>
    by_cases hp : p y = true
    · simp only [eraseFirst, hp, if_true, List.length_cons]
    · have hp' : p y = false := by simpa using hp
      rw [List.find?_cons_of_neg _ (by simpa using hp)] at hfind
      have := ih hfind
      simp only [eraseFirst, hp', Bool.false_eq_true, if_false, List.length_cons]
      omega

theorem mem_of_mem_eraseFirst (p : α → Bool) (l : List α) :
    ∀ x ∈ eraseFirst p l, x ∈ l := by
  induction l with
  | nil => intro x hx; simp [eraseFirst] at hx
  | cons y ys ih =>
    intro x hx
    by_cases hp : p y = true
    · simp only [eraseFirst, hp, if_true] at hx
      exact List.mem_cons_of_mem _ hx
    · simp only [eraseFirst, hp, if_false] at hx
      rcases List.mem_cons.mp hx with h | h
      · subst h; exact List.mem_cons_self _ _
      · exact List.mem_cons_of_mem _ (ih x h)

/-! Shape lemmas: how each apply operation evaluates once the looked-up row
and the stock comparison are known. -/

namespace Ruralis

theorem aplicar_eq_insufficient (db : DB) (aid : Nat) (d h : ℚ) (fe : FetchOutcome)
    (n : Nat) (dt : String) (a : Agroquimico)
    (hfind : db.agroquimicos.find? (fun x => x.id == aid) = some a)
    (hlt : a.cantidad < d * h) :
    aplicar_agroquimico db aid d h fe n dt = (.insufficientStock, db) := by
  unfold aplicar_agroquimico
  rw [hfind]
  dsimp only
  rw [if_pos hlt]

theorem aplicar_eq_ok (db : DB) (aid : Nat) (d h : ℚ) (fe : FetchOutcome)
    (n : Nat) (dt : String) (a : Agroquimico)
    (hfind : db.agroquimicos.find? (fun x => x.id == aid) = some a)
    (hle : ¬ a.cantidad < d * h) :
    aplicar_agroquimico db aid d h fe n dt =
      (.ok { a with cantidad := a.cantidad - d * h }
         ⟨n, aid, d * h, a.precio_unitario * (d * h),
          if a.moneda == "ARS" then a.precio_unitario * (d * h) * obtener_tipo_cambio fe
          else a.precio_unitario * (d * h), dt⟩,
       { agroquimicos :=
           updateFirst (fun x => x.id == aid)
             (fun x => { x with cantidad := x.cantidad - d * h }) db.agroquimicos,
         gastos := db.gastos ++
           [⟨n, aid, d * h, a.precio_unitario * (d * h),
             if a.moneda == "ARS" then a.precio_unitario * (d * h) * obtener_tipo_cambio fe
             else a.precio_unitario * (d * h), dt⟩] }) := by
  unfold aplicar_agroquimico
  rw [hfind]
  dsimp only
  rw [if_neg hle]

end Ruralis

namespace Legacy

theorem legacy_aplicar_eq_insufficient (db : DB) (aid : Nat) (d h : ℚ)
    (n : Nat) (dt : String) (a : Agroquimico)
    (hfind : db.agroquimicos.find? (fun x => x.id == aid) = some a)
    (hlt : a.cantidad < d * h) :
    aplicar_agroquimico db aid d h n dt = (.insufficientStock, db) := by
  unfold aplicar_agroquimico
  rw [hfind]
  dsimp only
  rw [if_pos hlt]

theorem legacy_aplicar_eq_ok (db : DB) (aid : Nat) (d h : ℚ)
    (n : Nat) (dt : String) (a : Agroquimico)
    (hfind : db.agroquimicos.find? (fun x => x.id == aid) = some a)
    (hle : ¬ a.cantidad < d * h) :
    aplicar_agroquimico db aid d h n dt =
      (.ok { a with cantidad := a.cantidad - d * h }
         ⟨n, aid, d * h, a.precio_unitario * (d * h / 1000), dt⟩,
       { db with
         agroquimicos :=
           updateFirst (fun x => x.id == aid)
             (fun x => { x with cantidad := x.cantidad - d * h }) db.agroquimicos,
         gastos := db.gastos ++
           [⟨n, aid, d * h, a.precio_unitario * (d * h / 1000), dt⟩] }) := by
  unfold aplicar_agroquimico
  rw [hfind]
  dsimp only
  rw [if_neg hle]

end Legacy

theorem Ruralis.aplicar_eq_notFound (db : Ruralis.DB) (aid : Nat) (d h : ℚ)
    (fe : Ruralis.FetchOutcome) (n : Nat) (dt : String)
    (hfind : db.agroquimicos.find? (fun x => x.id == aid) = none) :
    Ruralis.aplicar_agroquimico db aid d h fe n dt = (.notFound, db) := by
  unfold Ruralis.aplicar_agroquimico
  rw [hfind]

theorem Legacy.legacy_aplicar_eq_notFound (db : Legacy.DB) (aid : Nat) (d h : ℚ)
    (n : Nat) (dt : String)
    (hfind : db.agroquimicos.find? (fun x => x.id == aid) = none) :
    Legacy.aplicar_agroquimico db aid d h n dt = (.notFound, db) := by
  unfold Legacy.aplicar_agroquimico
  rw [hfind]

/-! The claims. -/

/-- Claim C1: for every apply request on an existing agrochemical where
dose_per_hectare × hectares is strictly greater than the current quantity,
the apply operation returns the InsufficientStock error body and the whole
database state — the agrochemical's quantity and the expense table — is
unchanged. Stated for both versions of `aplicar_agroquimico`. -/
theorem C1_insufficient_stock_rejected :
    (∀ (db : Ruralis.DB) (aid : Nat) (d h : ℚ) (fe : Ruralis.FetchOutcome) (n : Nat)
        (dt : String) (a : Ruralis.Agroquimico),
        db.agroquimicos.find? (fun x => x.id == aid) = some a →
        a.cantidad < d * h →
        Ruralis.aplicar_agroquimico db aid d h fe n dt = (.insufficientStock, db)) ∧
    (∀ (db : Legacy.DB) (aid : Nat) (d h : ℚ) (n : Nat) (dt : String)
        (a : Legacy.Agroquimico),
        db.agroquimicos.find? (fun x => x.id == aid) = some a →
        a.cantidad < d * h →
        Legacy.aplicar_agroquimico db aid d h n dt = (.insufficientStock, db)) :=
  ⟨fun db aid d h fe n dt a hfind hlt =>
      Ruralis.aplicar_eq_insufficient db aid d h fe n dt a hfind hlt,
   fun db aid d h n dt a hfind hlt =>
      Legacy.legacy_aplicar_eq_insufficient db aid d h n dt a hfind hlt⟩

theorem C1_witness :
    Ruralis.aplicar_agroquimico ⟨[⟨1, "Glifosato", 5, "L", 50, "ARS"⟩], []⟩ 1 2 10
        .networkError 7 "2025-01-01" =
      (.insufficientStock, ⟨[⟨1, "Glifosato", 5, "L", 50, "ARS"⟩], []⟩) ∧
    Legacy.aplicar_agroquimico ⟨[], [⟨1, "Glifosato", 5, "L", 50⟩], []⟩ 1 2 10 7 "2025-01-01" =
      (.insufficientStock, ⟨[], [⟨1, "Glifosato", 5, "L", 50⟩], []⟩) :=
  ⟨C1_insufficient_stock_rejected.1 _ 1 2 10 .networkError 7 "2025-01-01" _ rfl (by norm_num),
   C1_insufficient_stock_rejected.2 _ 1 2 10 7 "2025-01-01" _ rfl (by norm_num)⟩

/-- Claim C2: for every apply request on an existing agrochemical with
dose_per_hectare × hectares ≤ current quantity, the operation succeeds, the
stored quantity decreases by exactly dose_per_hectare × hectares, exactly one
expense record with `cantidad_aplicada` equal to that product is appended to
the expense table, and nothing else changes: the other tables are untouched
and every agrochemical row is either an original row or the single updated
row. Stated for both versions of `aplicar_agroquimico`. -/
theorem C2_successful_apply :
    (∀ (db : Ruralis.DB) (aid : Nat) (d h : ℚ) (fe : Ruralis.FetchOutcome) (n : Nat)
        (dt : String) (a : Ruralis.Agroquimico),
        db.agroquimicos.find? (fun x => x.id == aid) = some a →
        d * h ≤ a.cantidad →
        ∃ g, (Ruralis.aplicar_agroquimico db aid d h fe n dt).1 =
            .ok { a with cantidad := a.cantidad - d * h } g ∧
          g.cantidad_aplicada = d * h ∧
          (Ruralis.aplicar_agroquimico db aid d h fe n dt).2.gastos = db.gastos ++ [g] ∧
          (Ruralis.aplicar_agroquimico db aid d h fe n dt).2.agroquimicos.length =
            db.agroquimicos.length ∧
          (Ruralis.aplicar_agroquimico db aid d h fe n dt).2.agroquimicos.find?
              (fun x => x.id == aid) = some { a with cantidad := a.cantidad - d * h } ∧
          ∀ x ∈ (Ruralis.aplicar_agroquimico db aid d h fe n dt).2.agroquimicos,
            x = { a with cantidad := a.cantidad - d * h } ∨ x ∈ db.agroquimicos) ∧
    (∀ (db : Legacy.DB) (aid : Nat) (d h : ℚ) (n : Nat) (dt : String)
        (a : Legacy.Agroquimico),
        db.agroquimicos.find? (fun x => x.id == aid) = some a →
        d * h ≤ a.cantidad →
        ∃ g, (Legacy.aplicar_agroquimico db aid d h n dt).1 =
            .ok { a with cantidad := a.cantidad - d * h } g ∧
          g.cantidad_aplicada = d * h ∧
          (Legacy.aplicar_agroquimico db aid d h n dt).2.gastos = db.gastos ++ [g] ∧
          (Legacy.aplicar_agroquimico db aid d h n dt).2.users = db.users ∧
          (Legacy.aplicar_agroquimico db aid d h n dt).2.agroquimicos.length =
            db.agroquimicos.length ∧
          (Legacy.aplicar_agroquimico db aid d h n dt).2.agroquimicos.find?
              (fun x => x.id == aid) = some { a with cantidad := a.cantidad - d * h } ∧
          ∀ x ∈ (Legacy.aplicar_agroquimico db aid d h n dt).2.agroquimicos,
            x = { a with cantidad := a.cantidad - d * h } ∨ x ∈ db.agroquimicos) := by
  constructor
  · intro db aid d h fe n dt a hfind hle
    have hid : (a.id == aid) = true := by simpa using List.find?_some hfind
    rw [Ruralis.aplicar_eq_ok db aid d h fe n dt a hfind (not_lt.mpr hle)]
    refine ⟨_, rfl, rfl, rfl, length_updateFirst _ _ _, ?_, ?_⟩
    · exact find?_updateFirst _ _ _ a hfind (by simpa using hid)
    · exact mem_updateFirst_of_find? _ _ _ a hfind
  · intro db aid d h n dt a hfind hle
    have hid : (a.id == aid) = true := by simpa using List.find?_some hfind
    rw [Legacy.legacy_aplicar_eq_ok db aid d h n dt a hfind (not_lt.mpr hle)]
    refine ⟨_, rfl, rfl, rfl, rfl, length_updateFirst _ _ _, ?_, ?_⟩
    · exact find?_updateFirst _ _ _ a hfind (by simpa using hid)
    · exact mem_updateFirst_of_find? _ _ _ a hfind

theorem C2_witness :
    (∃ g : Ruralis.GastoAgroquimico,
        (Ruralis.aplicar_agroquimico ⟨[⟨1, "Glifosato", 100, "L", 50, "ARS"⟩], []⟩ 1 2 10
            (.ok (1 / 1000)) 7 "f").1 =
          Ruralis.ApplyResult.ok ⟨1, "Glifosato", (100 : ℚ) - 2 * 10, "L", 50, "ARS"⟩ g ∧
        g.cantidad_aplicada = (2 : ℚ) * 10 ∧
        (Ruralis.aplicar_agroquimico ⟨[⟨1, "Glifosato", 100, "L", 50, "ARS"⟩], []⟩ 1 2 10
            (.ok (1 / 1000)) 7 "f").2.gastos = [] ++ [g] ∧
        (Ruralis.aplicar_agroquimico ⟨[⟨1, "Glifosato", 100, "L", 50, "ARS"⟩], []⟩ 1 2 10
            (.ok (1 / 1000)) 7 "f").2.agroquimicos.length =
          ([⟨1, "Glifosato", (100 : ℚ), "L", 50, "ARS"⟩] : List Ruralis.Agroquimico).length ∧
        (Ruralis.aplicar_agroquimico ⟨[⟨1, "Glifosato", 100, "L", 50, "ARS"⟩], []⟩ 1 2 10
            (.ok (1 / 1000)) 7 "f").2.agroquimicos.find? (fun x => x.id == 1) =
          some ⟨1, "Glifosato", (100 : ℚ) - 2 * 10, "L", 50, "ARS"⟩ ∧
        ∀ x ∈ (Ruralis.aplicar_agroquimico ⟨[⟨1, "Glifosato", 100, "L", 50, "ARS"⟩], []⟩ 1 2 10
            (.ok (1 / 1000)) 7 "f").2.agroquimicos,
          x = ⟨1, "Glifosato", (100 : ℚ) - 2 * 10, "L", 50, "ARS"⟩ ∨
            x ∈ [⟨1, "Glifosato", (100 : ℚ), "L", 50, "ARS"⟩]) ∧
    (∃ g : Legacy.GastoAgroquimico,
        (Legacy.aplicar_agroquimico ⟨[], [⟨1, "Glifosato", 100, "L", 50⟩], []⟩ 1 2 10 7 "f").1 =
          Legacy.ApplyResult.ok ⟨1, "Glifosato", (100 : ℚ) - 2 * 10, "L", 50⟩ g ∧
        g.cantidad_aplicada = (2 : ℚ) * 10 ∧
        (Legacy.aplicar_agroquimico ⟨[], [⟨1, "Glifosato", 100, "L", 50⟩], []⟩ 1 2 10
            7 "f").2.gastos = [] ++ [g] ∧
        (Legacy.aplicar_agroquimico ⟨[], [⟨1, "Glifosato", 100, "L", 50⟩], []⟩ 1 2 10
            7 "f").2.users = [] ∧
        (Legacy.aplicar_agroquimico ⟨[], [⟨1, "Glifosato", 100, "L", 50⟩], []⟩ 1 2 10
            7 "f").2.agroquimicos.length =
          ([⟨1, "Glifosato", (100 : ℚ), "L", 50⟩] : List Legacy.Agroquimico).length ∧
        (Legacy.aplicar_agroquimico ⟨[], [⟨1, "Glifosato", 100, "L", 50⟩], []⟩ 1 2 10
            7 "f").2.agroquimicos.find? (fun x => x.id == 1) =
          some ⟨1, "Glifosato", (100 : ℚ) - 2 * 10, "L", 50⟩ ∧
        ∀ x ∈ (Legacy.aplicar_agroquimico ⟨[], [⟨1, "Glifosato", 100, "L", 50⟩], []⟩ 1 2 10
            7 "f").2.agroquimicos,
          x = ⟨1, "Glifosato", (100 : ℚ) - 2 * 10, "L", 50⟩ ∨
            x ∈ [⟨1, "Glifosato", (100 : ℚ), "L", 50⟩]) :=
  ⟨C2_successful_apply.1 ⟨[⟨1, "Glifosato", 100, "L", 50, "ARS"⟩], []⟩ 1 2 10
      (.ok (1 / 1000)) 7 "f" ⟨1, "Glifosato", 100, "L", 50, "ARS"⟩ rfl (by norm_num),
   C2_successful_apply.2 ⟨[], [⟨1, "Glifosato", 100, "L", 50⟩], []⟩ 1 2 10 7 "f"
      ⟨1, "Glifosato", 100, "L", 50⟩ rfl (by norm_num)⟩

/-- Claim C3: for every successful apply operation of the ruralis version,
the `costo_total_ars` field of the created expense record equals
unit_price × (dose_per_hectare × hectares). -/
theorem C3_cost_ars_formula :
    ∀ (db : Ruralis.DB) (aid : Nat) (d h : ℚ) (fe : Ruralis.FetchOutcome) (n : Nat)
      (dt : String) (a : Ruralis.Agroquimico),
      db.agroquimicos.find? (fun x => x.id == aid) = some a →
      d * h ≤ a.cantidad →
      ∃ a' g, (Ruralis.aplicar_agroquimico db aid d h fe n dt).1 = .ok a' g ∧
        g.costo_total_ars = a.precio_unitario * (d * h) := by
  intro db aid d h fe n dt a hfind hle
  rw [Ruralis.aplicar_eq_ok db aid d h fe n dt a hfind (not_lt.mpr hle)]
  exact ⟨_, _, rfl, rfl⟩

theorem C3_witness :
    (50 : ℚ) * (2 * 10) = 1000 ∧
    (∃ a' g, (Ruralis.aplicar_agroquimico ⟨[⟨1, "Glifosato", 100, "L", 50, "ARS"⟩], []⟩
          1 2 10 (.ok (1 / 1000)) 7 "f").1 = .ok a' g ∧
      g.costo_total_ars = (50 : ℚ) * (2 * 10)) :=
  ⟨by norm_num,
   C3_cost_ars_formula ⟨[⟨1, "Glifosato", 100, "L", 50, "ARS"⟩], []⟩ 1 2 10 (.ok (1 / 1000))
     7 "f" ⟨1, "Glifosato", 100, "L", 50, "ARS"⟩ rfl (by norm_num)⟩

/-- Claim C5: for every successful apply operation of the ruralis version,
when the agrochemical's currency is "ARS" the record's `costo_total_usd` is
`costo_total_ars` times the rate returned by the exchange-rate client, and
for any other currency `costo_total_usd` equals `costo_total_ars` unchanged. -/
theorem C5_currency_conversion :
    ∀ (db : Ruralis.DB) (aid : Nat) (d h : ℚ) (fe : Ruralis.FetchOutcome) (n : Nat)
      (dt : String) (a : Ruralis.Agroquimico),
      db.agroquimicos.find? (fun x => x.id == aid) = some a →
      d * h ≤ a.cantidad →
      ∃ a' g, (Ruralis.aplicar_agroquimico db aid d h fe n dt).1 = .ok a' g ∧
        (a.moneda = "ARS" →
          g.costo_total_usd = g.costo_total_ars * Ruralis.obtener_tipo_cambio fe) ∧
        (a.moneda ≠ "ARS" → g.costo_total_usd = g.costo_total_ars) := by
  intro db aid d h fe n dt a hfind hle
  rw [Ruralis.aplicar_eq_ok db aid d h fe n dt a hfind (not_lt.mpr hle)]
  refine ⟨_, _, rfl, ?_, ?_⟩
  · intro hm
    have : (a.moneda == "ARS") = true := by simpa using hm
    simp [this]
  · intro hm
    have : (a.moneda == "ARS") = false := by simpa using hm
    simp [this]

theorem C5_witness :
    (∃ a' g, (Ruralis.aplicar_agroquimico ⟨[⟨1, "G", 100, "L", 50, "ARS"⟩], []⟩ 1 2 10
          (.ok (1 / 2)) 7 "f").1 = .ok a' g ∧
        ("ARS" = "ARS" →
          g.costo_total_usd = g.costo_total_ars * Ruralis.obtener_tipo_cambio (.ok (1 / 2))) ∧
        ("ARS" ≠ "ARS" → g.costo_total_usd = g.costo_total_ars)) ∧
    (∃ a' g, (Ruralis.aplicar_agroquimico ⟨[⟨2, "G", 100, "L", 50, "USD"⟩], []⟩ 2 2 10
          (.ok (1 / 2)) 7 "f").1 = .ok a' g ∧
        ("USD" = "ARS" →
          g.costo_total_usd = g.costo_total_ars * Ruralis.obtener_tipo_cambio (.ok (1 / 2))) ∧
        ("USD" ≠ "ARS" → g.costo_total_usd = g.costo_total_ars)) :=
  ⟨C5_currency_conversion ⟨[⟨1, "G", 100, "L", 50, "ARS"⟩], []⟩ 1 2 10 (.ok (1 / 2)) 7 "f"
      ⟨1, "G", 100, "L", 50, "ARS"⟩ rfl (by norm_num),
   C5_currency_conversion ⟨[⟨2, "G", 100, "L", 50, "USD"⟩], []⟩ 2 2 10 (.ok (1 / 2)) 7 "f"
      ⟨2, "G", 100, "L", 50, "USD"⟩ rfl (by norm_num)⟩

/-- Claim C9: when dose_per_hectare × hectares exactly equals the current
quantity, the apply operation succeeds (the check `cantidad < needed` is
strict), the remaining stock is exactly zero, and an expense record is
appended. Stated for both versions of `aplicar_agroquimico`. -/
theorem C9_exact_stock_boundary :
    (∀ (db : Ruralis.DB) (aid : Nat) (d h : ℚ) (fe : Ruralis.FetchOutcome) (n : Nat)
        (dt : String) (a : Ruralis.Agroquimico),
        db.agroquimicos.find? (fun x => x.id == aid) = some a →
        d * h = a.cantidad →
        ∃ g, (Ruralis.aplicar_agroquimico db aid d h fe n dt).1 =
            .ok { a with cantidad := 0 } g ∧
          g.cantidad_aplicada = d * h ∧
          (Ruralis.aplicar_agroquimico db aid d h fe n dt).2.gastos = db.gastos ++ [g]) ∧
    (∀ (db : Legacy.DB) (aid : Nat) (d h : ℚ) (n : Nat) (dt : String)
        (a : Legacy.Agroquimico),
        db.agroquimicos.find? (fun x => x.id == aid) = some a →
        d * h = a.cantidad →
        ∃ g, (Legacy.aplicar_agroquimico db aid d h n dt).1 =
            .ok { a with cantidad := 0 } g ∧
          g.cantidad_aplicada = d * h ∧
          (Legacy.aplicar_agroquimico db aid d h n dt).2.gastos = db.gastos ++ [g]) := by
  constructor
  · intro db aid d h fe n dt a hfind heq
    rw [Ruralis.aplicar_eq_ok db aid d h fe n dt a hfind (not_lt.mpr (le_of_eq heq))]
    rw [heq]
    simp only [sub_self]
    exact ⟨_, rfl, rfl, rfl⟩
  · intro db aid d h n dt a hfind heq
    rw [Legacy.legacy_aplicar_eq_ok db aid d h n dt a hfind (not_lt.mpr (le_of_eq heq))]
    rw [heq]
    simp only [sub_self]
    exact ⟨_, rfl, rfl, rfl⟩

theorem C9_witness :
    (∃ g, (Ruralis.aplicar_agroquimico ⟨[⟨1, "G", 20, "L", 50, "ARS"⟩], []⟩ 1 2 10
          .networkError 7 "f").1 = .ok ⟨1, "G", 0, "L", 50, "ARS"⟩ g ∧
        g.cantidad_aplicada = (2 : ℚ) * 10 ∧
        (Ruralis.aplicar_agroquimico ⟨[⟨1, "G", 20, "L", 50, "ARS"⟩], []⟩ 1 2 10
          .networkError 7 "f").2.gastos = [] ++ [g]) ∧
    (∃ g, (Legacy.aplicar_agroquimico ⟨[], [⟨1, "G", 20, "L", 50⟩], []⟩ 1 2 10 7 "f").1 =
          .ok ⟨1, "G", 0, "L", 50⟩ g ∧
        g.cantidad_aplicada = (2 : ℚ) * 10 ∧
        (Legacy.aplicar_agroquimico ⟨[], [⟨1, "G", 20, "L", 50⟩], []⟩ 1 2 10
          7 "f").2.gastos = [] ++ [g]) :=
  ⟨C9_exact_stock_boundary.1 ⟨[⟨1, "G", 20, "L", 50, "ARS"⟩], []⟩ 1 2 10 .networkError 7 "f"
      ⟨1, "G", 20, "L", 50, "ARS"⟩ rfl (by norm_num),
   C9_exact_stock_boundary.2 ⟨[], [⟨1, "G", 20, "L", 50⟩], []⟩ 1 2 10 7 "f"
      ⟨1, "G", 20, "L", 50⟩ rfl (by norm_num)⟩

/-- Claim C6: the exchange-rate lookup is total — each failure mode (network
error, malformed response, missing "USD" field) yields the fixed fallback
rate 0.001 instead of an error — so an apply that has passed the stock check
succeeds for every fetch outcome, and under the spec's preconditions
(positive dose and hectares, non-negative unit price, and a non-negative
fetched rate) the recorded `costo_total_usd` is non-negative. -/
theorem C6_exchange_rate_fallback_total :
    (Ruralis.obtener_tipo_cambio .networkError = 1 / 1000 ∧
     Ruralis.obtener_tipo_cambio .malformed = 1 / 1000 ∧
     Ruralis.obtener_tipo_cambio .missingUSD = 1 / 1000) ∧
    (∀ (db : Ruralis.DB) (aid : Nat) (d h : ℚ) (fe : Ruralis.FetchOutcome) (n : Nat)
        (dt : String) (a : Ruralis.Agroquimico),
        db.agroquimicos.find? (fun x => x.id == aid) = some a →
        d * h ≤ a.cantidad →
        ∃ a' g, (Ruralis.aplicar_agroquimico db aid d h fe n dt).1 = .ok a' g) ∧
    (∀ (db : Ruralis.DB) (aid : Nat) (d h : ℚ) (fe : Ruralis.FetchOutcome) (n : Nat)
        (dt : String) (a : Ruralis.Agroquimico),
        db.agroquimicos.find? (fun x => x.id == aid) = some a →
        d * h ≤ a.cantidad → 0 < d → 0 < h → 0 ≤ a.precio_unitario →
        (∀ r, fe = .ok r → 0 ≤ r) →
        ∃ a' g, (Ruralis.aplicar_agroquimico db aid d h fe n dt).1 = .ok a' g ∧
          0 ≤ g.costo_total_usd) := by
  refine ⟨⟨rfl, rfl, rfl⟩, ?_, ?_⟩
  · intro db aid d h fe n dt a hfind hle
    rw [Ruralis.aplicar_eq_ok db aid d h fe n dt a hfind (not_lt.mpr hle)]
    exact ⟨_, _, rfl⟩
  · intro db aid d h fe n dt a hfind hle hd hh hp hr
    rw [Ruralis.aplicar_eq_ok db aid d h fe n dt a hfind (not_lt.mpr hle)]
    refine ⟨_, _, rfl, ?_⟩
    have hdh : 0 ≤ d * h := le_of_lt (mul_pos hd hh)
    have hars : 0 ≤ a.precio_unitario * (d * h) := mul_nonneg hp hdh
    have hrate : 0 ≤ Ruralis.obtener_tipo_cambio fe := by
      cases fe with
      | ok r => exact hr r rfl
      | missingUSD => norm_num [Ruralis.obtener_tipo_cambio]
      | malformed => norm_num [Ruralis.obtener_tipo_cambio]
      | networkError => norm_num [Ruralis.obtener_tipo_cambio]
    dsimp only
    split
    · exact mul_nonneg hars hrate
    · exact hars

theorem C6_witness :
    Ruralis.obtener_tipo_cambio .networkError = 1 / 1000 ∧
    (∃ a' g, (Ruralis.aplicar_agroquimico ⟨[⟨1, "G", 100, "L", 50, "ARS"⟩], []⟩ 1 2 10
        .networkError 7 "f").1 = .ok a' g) ∧
    (∃ a' g, (Ruralis.aplicar_agroquimico ⟨[⟨1, "G", 100, "L", 50, "ARS"⟩], []⟩ 1 2 10
        .networkError 7 "f").1 = .ok a' g ∧ 0 ≤ g.costo_total_usd) :=
  ⟨C6_exchange_rate_fallback_total.1.1,
   C6_exchange_rate_fallback_total.2.1 ⟨[⟨1, "G", 100, "L", 50, "ARS"⟩], []⟩ 1 2 10
     .networkError 7 "f" ⟨1, "G", 100, "L", 50, "ARS"⟩ rfl (by norm_num),
   C6_exchange_rate_fallback_total.2.2 ⟨[⟨1, "G", 100, "L", 50, "ARS"⟩], []⟩ 1 2 10
     .networkError 7 "f" ⟨1, "G", 100, "L", 50, "ARS"⟩ rfl (by norm_num) (by norm_num)
     (by norm_num) (by norm_num) (fun r hr => by simp at hr)⟩

/-- Claim C7: deleting a user or agrochemical by an absent id returns the
not-found body and leaves the store unchanged; deleting by a present id
returns the confirmation, removes exactly one row from that table, removes
only rows that were already stored, and leaves the other tables unchanged. -/
theorem C7_delete_by_id :
    (∀ (db : Legacy.DB) (uid : Nat),
        db.users.find? (fun u => u.id == uid) = none →
        Legacy.delete_user db uid = (.notFound, db)) ∧
    (∀ (db : Legacy.DB) (uid : Nat) (u : Legacy.User),
        db.users.find? (fun x => x.id == uid) = some u →
        (Legacy.delete_user db uid).1 = .deleted ∧
        (Legacy.delete_user db uid).2.users.length + 1 = db.users.length ∧
        (∀ x ∈ (Legacy.delete_user db uid).2.users, x ∈ db.users) ∧
        (Legacy.delete_user db uid).2.agroquimicos = db.agroquimicos ∧
        (Legacy.delete_user db uid).2.gastos = db.gastos) ∧
    (∀ (db : Legacy.DB) (aid : Nat),
        db.agroquimicos.find? (fun a => a.id == aid) = none →
        Legacy.delete_agroquimico db aid = (.notFound, db)) ∧
    (∀ (db : Legacy.DB) (aid : Nat) (a : Legacy.Agroquimico),
        db.agroquimicos.find? (fun x => x.id == aid) = some a →
        (Legacy.delete_agroquimico db aid).1 = .deleted ∧
        (Legacy.delete_agroquimico db aid).2.agroquimicos.length + 1 =
          db.agroquimicos.length ∧
        (∀ x ∈ (Legacy.delete_agroquimico db aid).2.agroquimicos, x ∈ db.agroquimicos) ∧
        (Legacy.delete_agroquimico db aid).2.users = db.users ∧
        (Legacy.delete_agroquimico db aid).2.gastos = db.gastos) := by
  refine ⟨?_, ?_, ?_, ?_⟩
  · intro db uid hfind
    unfold Legacy.delete_user
    rw [hfind]
  · intro db uid u hfind
    unfold Legacy.delete_user
    rw [hfind]
    exact ⟨rfl, length_eraseFirst_of_find? _ _ u hfind,
      fun x hx => mem_of_mem_eraseFirst _ _ x hx, rfl, rfl⟩
  · intro db aid hfind
    unfold Legacy.delete_agroquimico
    rw [hfind]
  · intro db aid a hfind
    unfold Legacy.delete_agroquimico
    rw [hfind]
    exact ⟨rfl, length_eraseFirst_of_find? _ _ a hfind,
      fun x hx => mem_of_mem_eraseFirst _ _ x hx, rfl, rfl⟩

theorem C7_witness :
    Legacy.delete_user ⟨[⟨1, "Ana", "a@x"⟩], [], []⟩ 2 =
      (.notFound, ⟨[⟨1, "Ana", "a@x"⟩], [], []⟩) ∧
    ((Legacy.delete_user ⟨[⟨1, "Ana", "a@x"⟩], [], []⟩ 1).1 = .deleted ∧
      (Legacy.delete_user ⟨[⟨1, "Ana", "a@x"⟩], [], []⟩ 1).2.users.length + 1 =
        ([⟨1, "Ana", "a@x"⟩] : List Legacy.User).length ∧
      (∀ x ∈ (Legacy.delete_user ⟨[⟨1, "Ana", "a@x"⟩], [], []⟩ 1).2.users,
        x ∈ ([⟨1, "Ana", "a@x"⟩] : List Legacy.User)) ∧
      (Legacy.delete_user ⟨[⟨1, "Ana", "a@x"⟩], [], []⟩ 1).2.agroquimicos = [] ∧
      (Legacy.delete_user ⟨[⟨1, "Ana", "a@x"⟩], [], []⟩ 1).2.gastos = []) ∧
    Legacy.delete_agroquimico ⟨[], [⟨1, "G", 5, "L", 50⟩], []⟩ 2 =
      (.notFound, ⟨[], [⟨1, "G", 5, "L", 50⟩], []⟩) ∧
    ((Legacy.delete_agroquimico ⟨[], [⟨1, "G", 5, "L", 50⟩], []⟩ 1).1 = .deleted ∧
      (Legacy.delete_agroquimico ⟨[], [⟨1, "G", 5, "L", 50⟩], []⟩ 1).2.agroquimicos.length
        + 1 = ([⟨1, "G", 5, "L", 50⟩] : List Legacy.Agroquimico).length ∧
      (∀ x ∈ (Legacy.delete_agroquimico ⟨[], [⟨1, "G", 5, "L", 50⟩], []⟩ 1).2.agroquimicos,
        x ∈ ([⟨1, "G", 5, "L", 50⟩] : List Legacy.Agroquimico)) ∧
      (Legacy.delete_agroquimico ⟨[], [⟨1, "G", 5, "L", 50⟩], []⟩ 1).2.users = [] ∧
      (Legacy.delete_agroquimico ⟨[], [⟨1, "G", 5, "L", 50⟩], []⟩ 1).2.gastos = []) :=
  ⟨C7_delete_by_id.1 ⟨[⟨1, "Ana", "a@x"⟩], [], []⟩ 2 rfl,
   C7_delete_by_id.2.1 ⟨[⟨1, "Ana", "a@x"⟩], [], []⟩ 1 ⟨1, "Ana", "a@x"⟩ rfl,
   C7_delete_by_id.2.2.1 ⟨[], [⟨1, "G", 5, "L", 50⟩], []⟩ 2 rfl,
   C7_delete_by_id.2.2.2 ⟨[], [⟨1, "G", 5, "L", 50⟩], []⟩ 1 ⟨1, "G", 5, "L", 50⟩ rfl⟩

namespace Legacy

/-- One incoming request of the legacy service (spec §6). `newId` stands for
the primary key the store generates on an insert, `fecha` for the formatted
current timestamp. -/
inductive Op where
  | createUser (name email : String) (newId : Nat)
  | createAgroquimico (nombre : String) (cantidad : ℚ) (unidad : String)
      (precio_unitario : ℚ) (newId : Nat)
  | listUsers
  | listAgroquimicos
  | listGastos
  | deleteUser (user_id : Nat)
  | deleteAgroquimico (agroquimico_id : Nat)
  | aplicar (agroquimico_id : Nat) (dosis_por_ha hectareas : ℚ) (newId : Nat) (fecha : String)

/-- Effect of one request on the stored state; read-only requests leave it as is. -/
def step (db : DB) : Op → DB
  | .createUser name email newId => (create_user db name email newId).2
  | .createAgroquimico nombre cantidad unidad precio newId =>
      (create_agroquimico db nombre cantidad unidad precio newId).2
  | .listUsers => db
  | .listAgroquimicos => db
  | .listGastos => db
  | .deleteUser uid => (delete_user db uid).2
  | .deleteAgroquimico aid => (delete_agroquimico db aid).2
  | .aplicar aid d h newId fecha => (aplicar_agroquimico db aid d h newId fecha).2

/-- Run a sequence of requests against the store. -/
def run (db : DB) : List Op → DB
  | [] => db
  | op :: ops => run (step db op) ops

/-- The hypotheses claim C8 places on requests: creation with a non-negative
quantity, application with positive dose and hectare count. -/
def validOp : Op → Prop
  | .createAgroquimico _ cantidad _ _ _ => 0 ≤ cantidad
  | .aplicar _ d h _ _ => 0 < d ∧ 0 < h
  | _ => True

/-- Invariant: no stored agrochemical quantity is negative. -/
def stockInv (db : DB) : Prop := ∀ a ∈ db.agroquimicos, 0 ≤ a.cantidad

theorem stockInv_step (db : DB) (op : Op) (hinv : stockInv db) (hop : validOp op) :
    stockInv (step db op) := by
  cases op with
  | createUser name email newId => exact hinv
  | createAgroquimico nombre cantidad unidad precio newId =>
    intro a ha
    dsimp only [step, create_agroquimico] at ha
    rcases List.mem_append.mp ha with ha | ha
    · exact hinv a ha
    · rcases List.mem_singleton.mp ha with rfl
      exact hop
  | listUsers => exact hinv
  | listAgroquimicos => exact hinv
  | listGastos => exact hinv
  | deleteUser uid =>
    rcases hf : db.users.find? (fun u => u.id == uid) with _ | u
    · intro a ha
      simp only [step, delete_user, hf] at ha
      exact hinv a ha
    · intro a ha
      simp only [step, delete_user, hf] at ha
      exact hinv a ha
  | deleteAgroquimico aid =>
    rcases hf : db.agroquimicos.find? (fun a => a.id == aid) with _ | a
    · intro a ha
      simp only [step, delete_agroquimico, hf] at ha
      exact hinv a ha
    · intro x hx
      simp only [step, delete_agroquimico, hf] at hx
      exact hinv x (mem_of_mem_eraseFirst _ _ x hx)
  | aplicar aid d h newId fecha =>
    rcases hf : db.agroquimicos.find? (fun x => x.id == aid) with _ | a
    · intro x hx
      simp only [step, legacy_aplicar_eq_notFound db aid d h newId fecha hf] at hx
      exact hinv x hx
    · by_cases hlt : a.cantidad < d * h
      · intro x hx
        simp only [step, legacy_aplicar_eq_insufficient db aid d h newId fecha a hf hlt] at hx
        exact hinv x hx
      · intro x hx
        simp only [step, legacy_aplicar_eq_ok db aid d h newId fecha a hf hlt] at hx
        rcases mem_updateFirst_of_find? _ _ _ a hf x hx with rfl | hx
        · dsimp only
          have := not_lt.mp hlt
          linarith
        · exact hinv x hx

theorem stockInv_run (ops : List Op) :
    ∀ db : DB, stockInv db → (∀ op ∈ ops, validOp op) → stockInv (run db ops) := by
  induction ops with
  | nil => intro db hinv _; exact hinv
  | cons op ops ih =>
    intro db hinv hval
    exact ih (step db op)
      (stockInv_step db op hinv (hval op (List.mem_cons_self _ _)))
      (fun o ho => hval o (List.mem_cons_of_mem _ ho))

end Legacy

/-- Claim C8: non-negativity of stock is an invariant. Starting from a store
whose agrochemical quantities are all non-negative, any sequence of requests
(create, list, delete, apply) in which every creation has non-negative
quantity and every apply has positive dose and hectares keeps every stored
quantity non-negative; the ruralis apply also preserves the invariant on its
own, and an apply that would overdraw is rejected with no state change. -/
theorem C8_stock_nonnegative_invariant :
    (∀ (db : Legacy.DB) (ops : List Legacy.Op),
        Legacy.stockInv db → (∀ op ∈ ops, Legacy.validOp op) →
        Legacy.stockInv (Legacy.run db ops)) ∧
    (∀ (db : Ruralis.DB) (aid : Nat) (d h : ℚ) (fe : Ruralis.FetchOutcome) (n : Nat)
        (dt : String),
        (∀ a ∈ db.agroquimicos, 0 ≤ a.cantidad) →
        ∀ x ∈ (Ruralis.aplicar_agroquimico db aid d h fe n dt).2.agroquimicos,
          0 ≤ x.cantidad) ∧
    (∀ (db : Legacy.DB) (aid : Nat) (d h : ℚ) (n : Nat) (dt : String)
        (a : Legacy.Agroquimico),
        db.agroquimicos.find? (fun x => x.id == aid) = some a →
        a.cantidad < d * h →
        Legacy.aplicar_agroquimico db aid d h n dt = (.insufficientStock, db)) := by
  refine ⟨fun db ops hinv hval => Legacy.stockInv_run ops db hinv hval, ?_,
    fun db aid d h n dt a hfind hlt =>
      Legacy.legacy_aplicar_eq_insufficient db aid d h n dt a hfind hlt⟩
  intro db aid d h fe n dt hinv
  rcases hf : db.agroquimicos.find? (fun x => x.id == aid) with _ | a
  · intro x hx
    simp only [Ruralis.aplicar_eq_notFound db aid d h fe n dt hf] at hx
    exact hinv x hx
  · by_cases hlt : a.cantidad < d * h
    · intro x hx
      simp only [Ruralis.aplicar_eq_insufficient db aid d h fe n dt a hf hlt] at hx
      exact hinv x hx
    · intro x hx
      simp only [Ruralis.aplicar_eq_ok db aid d h fe n dt a hf hlt] at hx
      rcases mem_updateFirst_of_find? _ _ _ a hf x hx with rfl | hx
      · dsimp only
        have := not_lt.mp hlt
        linarith
      · exact hinv x hx

theorem C8_witness :
    Legacy.stockInv (Legacy.run ⟨[], [⟨1, "G", 100, "L", 50⟩], []⟩
      [.createAgroquimico "Urea" 30 "kg" 20 2, .aplicar 1 2 10 7 "f", .deleteUser 3]) ∧
    (∀ x ∈ (Ruralis.aplicar_agroquimico ⟨[⟨1, "G", 100, "L", 50, "ARS"⟩], []⟩ 1 2 10
        .networkError 7 "f").2.agroquimicos, 0 ≤ x.cantidad) ∧
    Legacy.aplicar_agroquimico ⟨[], [⟨1, "G", 5, "L", 50⟩], []⟩ 1 2 10 7 "f" =
      (.insufficientStock, ⟨[], [⟨1, "G", 5, "L", 50⟩], []⟩) :=
  ⟨C8_stock_nonnegative_invariant.1 ⟨[], [⟨1, "G", 100, "L", 50⟩], []⟩
      [.createAgroquimico "Urea" 30 "kg" 20 2, .aplicar 1 2 10 7 "f", .deleteUser 3]
      (by intro a ha
          rcases List.mem_singleton.mp ha with rfl
          norm_num)
      (by intro op hop
          fin_cases hop <;> norm_num [Legacy.validOp]),
   C8_stock_nonnegative_invariant.2.1 ⟨[⟨1, "G", 100, "L", 50, "ARS"⟩], []⟩ 1 2 10
      .networkError 7 "f"
      (by intro a ha
          rcases List.mem_singleton.mp ha with rfl
          norm_num),
   C8_stock_nonnegative_invariant.2.2 ⟨[], [⟨1, "G", 5, "L", 50⟩], []⟩ 1 2 10 7 "f"
      ⟨1, "G", 5, "L", 50⟩ rfl (by norm_num)⟩

/-- Claim C10 (amended): on an existing agrochemical with non-negative
quantity, a request with dosis × hectareas negative passes the stock check
and succeeds: the stored quantity increases by |dosis × hectareas|, and the
created expense record has negative `cantidad_aplicada`; its cost fields are
`precio_unitario` times the negative amount, hence negative exactly when the
unit price is positive (a zero or negative unit price gives a zero or
positive cost, which is what forces the amendment). -/
theorem C10_negative_dose_accepted :
    ∀ (db : Ruralis.DB) (aid : Nat) (d h : ℚ) (fe : Ruralis.FetchOutcome) (n : Nat)
      (dt : String) (a : Ruralis.Agroquimico),
      db.agroquimicos.find? (fun x => x.id == aid) = some a →
      0 ≤ a.cantidad → d * h < 0 →
      ∃ g, (Ruralis.aplicar_agroquimico db aid d h fe n dt).1 =
          .ok { a with cantidad := a.cantidad - d * h } g ∧
        a.cantidad - d * h = a.cantidad + |d * h| ∧
        a.cantidad < a.cantidad - d * h ∧
        (Ruralis.aplicar_agroquimico db aid d h fe n dt).2.gastos = db.gastos ++ [g] ∧
        g.cantidad_aplicada < 0 ∧
        (0 < a.precio_unitario → g.costo_total_ars < 0) := by
  intro db aid d h fe n dt a hfind hc hneg
  have hle : ¬ a.cantidad < d * h := not_lt.mpr (le_of_lt (lt_of_lt_of_le hneg hc))
  rw [Ruralis.aplicar_eq_ok db aid d h fe n dt a hfind hle]
  refine ⟨_, rfl, ?_, ?_, rfl, ?_, ?_⟩
  · rw [abs_of_neg hneg]; ring
  · linarith
  · exact hneg
  · intro hp
    exact mul_neg_of_pos_of_neg hp hneg

theorem C10_witness :
    ∃ g, (Ruralis.aplicar_agroquimico ⟨[⟨1, "G", 5, "L", 50, "ARS"⟩], []⟩ 1 (-1) 2
          .networkError 7 "f").1 = .ok ⟨1, "G", (5 : ℚ) - (-1) * 2, "L", 50, "ARS"⟩ g ∧
      (5 : ℚ) - (-1) * 2 = 5 + |(-1 : ℚ) * 2| ∧
      (5 : ℚ) < 5 - (-1) * 2 ∧
      (Ruralis.aplicar_agroquimico ⟨[⟨1, "G", 5, "L", 50, "ARS"⟩], []⟩ 1 (-1) 2
          .networkError 7 "f").2.gastos = [] ++ [g] ∧
      g.cantidad_aplicada < 0 ∧
      ((0 : ℚ) < 50 → g.costo_total_ars < 0) :=
  C10_negative_dose_accepted ⟨[⟨1, "G", 5, "L", 50, "ARS"⟩], []⟩ 1 (-1) 2 .networkError 7 "f"
    ⟨1, "G", 5, "L", 50, "ARS"⟩ rfl (by norm_num) (by norm_num)

/-- Claim C10's counterexample to the claim as stated: with unit price 0,
dosis = -1 and hectareas = 2 on a stock of 5, the premises of the claim hold
(existing row, non-negative quantity, negative dosis × hectareas) and the
apply succeeds with stock growing to 7, but the created expense record's
cost is 0, not negative as the claim asserts. -/
theorem C10_counterexample :
    ((-1 : ℚ) * 2 < 0) ∧ (0 : ℚ) ≤ 5 ∧
    Ruralis.aplicar_agroquimico ⟨[⟨1, "G", 5, "L", 0, "ARS"⟩], []⟩ 1 (-1) 2
        .networkError 7 "f" =
      (.ok ⟨1, "G", 7, "L", 0, "ARS"⟩ ⟨7, 1, -2, 0, 0, "f"⟩,
       ⟨[⟨1, "G", 7, "L", 0, "ARS"⟩], [⟨7, 1, -2, 0, 0, "f"⟩]⟩) ∧
    ¬ ((⟨7, 1, -2, 0, 0, "f"⟩ : Ruralis.GastoAgroquimico).costo_total_ars < 0) := by
  refine ⟨by norm_num, by norm_num, ?_, by norm_num⟩
  rw [Ruralis.aplicar_eq_ok ⟨[⟨1, "G", 5, "L", 0, "ARS"⟩], []⟩ 1 (-1) 2 .networkError 7 "f"
      ⟨1, "G", 5, "L", 0, "ARS"⟩ rfl (by norm_num)]
  norm_num [updateFirst, Ruralis.obtener_tipo_cambio]

/-- Claim C4: the cost-total report returns the componentwise sums of the
`costo_total_ars` and `costo_total_usd` columns over all expense records,
and in particular (0, 0) when the expense table is empty. The theorem
evaluates the modelled (intended) handler; the handler as committed raises
NameError on every request because `func` is never imported. -/
theorem C4_cost_total_report :
    Ruralis.get_costo_total ⟨[], []⟩ = (0, 0) ∧
    Ruralis.get_costo_total ⟨[], [⟨1, 1, 20, 1000, 1, "f"⟩, ⟨2, 1, 10, 500, 2, "f"⟩]⟩ =
      (1000 + 500, 1 + 2) := by
  constructor
  · rfl
  · norm_num [Ruralis.get_costo_total]

/-- Claim C6's counterexample to the claim as stated: the handler does not
validate the fetched rate, so with a well-formed response carrying a negative
"USD" value (rate -1), positive dose and hectares and a non-negative unit
price, the apply succeeds but records a negative `costo_total_usd`. -/
theorem C6_counterexample :
    (0 : ℚ) < 2 ∧ (0 : ℚ) < 10 ∧ (0 : ℚ) ≤ 50 ∧
    (Ruralis.aplicar_agroquimico ⟨[⟨1, "G", 100, "L", 50, "ARS"⟩], []⟩ 1 2 10
        (.ok (-1)) 7 "f").1 =
      .ok ⟨1, "G", 80, "L", 50, "ARS"⟩ ⟨7, 1, 20, 1000, -1000, "f"⟩ ∧
    ¬ (0 : ℚ) ≤ (⟨7, 1, 20, 1000, -1000, "f"⟩ : Ruralis.GastoAgroquimico).costo_total_usd := by
  refine ⟨by norm_num, by norm_num, by norm_num, ?_, by norm_num⟩
  rw [Ruralis.aplicar_eq_ok ⟨[⟨1, "G", 100, "L", 50, "ARS"⟩], []⟩ 1 2 10 (.ok (-1)) 7 "f"
      ⟨1, "G", 100, "L", 50, "ARS"⟩ rfl (by norm_num)]
  norm_num [Ruralis.obtener_tipo_cambio]
